import Mathlib

/-!
Verification development for the rubric evaluation and normalization engine
and the sentence-boundary streaming detector of the communication-practice
repository (django_api/apps/openai_integration/evaluators.py and utils.py).

The Python code is shallowly embedded:
* JSON values returned by the LLM judge are the inductive type `JValue`
  (Python distinguishes `int`, `float` and `bool`, so the embedding does too).
* Python attribute/type errors raised by operations such as `x.get(...)` on a
  non-dict, or iteration over a non-iterable, are modelled with
  `Except String`; the error strings name the Python exception class.
* Python `int` is `ℤ`, Python `float` is `ℚ` (exact arithmetic; IEEE-754
  rounding of Python floats is abstracted away, which is the standard
  idealization for reasoning about the aggregation formulas).
* Python strings are `String` or `List Char` (the streaming buffer uses
  `List Char` so that positional indexing is structural).
-/

/-! ## Python-semantics helpers -/

/-- Whitespace characters stripped by Python `str.strip()` (ASCII subset). -/
def pyIsSpace (c : Char) : Bool :=
  c = ' ' || c = '\t' || c = '\n' || c = '\r' || c = '\x0b' || c = '\x0c'

/-- Python `s.lstrip()` on a character list. -/
def pyLstrip (l : List Char) : List Char := l.dropWhile pyIsSpace

/-- Python `s.rstrip()` on a character list. -/
def pyRstrip (l : List Char) : List Char := (l.reverse.dropWhile pyIsSpace).reverse

/-- Python `s.strip()` on a character list. -/
def pyStripL (l : List Char) : List Char := pyRstrip (pyLstrip l)

/-- Python `s.strip()` on a `String`. -/
def pyStripS (s : String) : String := String.mk (pyStripL s.data)

/-- Python `l[-n:]` for a non-negative `n`: the trailing `n` elements,
except that `n = 0` yields the whole list (`l[-0:] = l[0:] = l`). -/
def pyTakeLast (n : Nat) (l : List α) : List α :=
  if n = 0 then l else l.drop (l.length - n)

/-- Python `s[-n:]` on a `String` (same zero quirk as `pyTakeLast`). -/
def pyTakeLastS (n : Nat) (s : String) : String :=
  String.mk (pyTakeLast n s.data)

/-- Python `int()` truncation toward zero on an exact rational. -/
def pyTrunc (q : ℚ) : ℤ :=
  if q < 0 then -((-q).floor) else q.floor

/-- Round half to even on an exact rational (Python `round` on exact values). -/
def pyRoundHalfEven (x : ℚ) : ℤ :=
  let f := x.floor
  let r := x - (f : ℚ)
  if r < 1/2 then f
  else if r > 1/2 then f + 1
  else if f % 2 = 0 then f else f + 1

/-- Python `round(x, 1)` on an exact rational. -/
def pyRound1 (x : ℚ) : ℚ :=
  (pyRoundHalfEven (x * 10) : ℚ) / 10

/-! ## Sentence-boundary streaming detector

Embedding of `SentenceDetector` from
`src/django_api/apps/openai_integration/utils.py`.  The mutable buffer is
passed explicitly as a `List Char`. -/

namespace SentenceDetector

/-- The fixed abbreviation set (`SentenceDetector.ABBREVIATIONS`). -/
def ABBREVIATIONS : List (List Char) :=
  ["dr", "mr", "mrs", "ms", "prof", "sr", "jr", "st", "ave", "blvd",
   "etc", "vs", "inc", "ltd", "co", "corp", "dept", "est", "approx",
   "fig", "no", "vol", "pp", "ed", "rev", "gen", "col", "lt", "sgt",
   "capt", "maj", "jan", "feb", "mar", "apr", "jun", "jul", "aug",
   "sep", "sept", "oct", "nov", "dec", "mon", "tue", "wed", "thu",
   "fri", "sat", "sun", "e.g", "i.e", "a.m", "p.m", "b.c", "a.d"].map String.data

/-- `SENTENCE_ENDINGS = '.!?'`. -/
def sentenceEndings : List Char := ['.', '!', '?']

/-- The suffix of `s` strictly after the last occurrence of the non-empty
pattern `pat`, or `none` when `pat` does not occur (Python
`s.split(pat)[-1]` combined with the `pat in s` test). -/
def afterLastOcc (pat : List Char) : List Char → Option (List Char)
  | [] => none
  | c :: rest =>
    match afterLastOcc pat rest with
    | some r => some r
    | none =>
      if pat.isPrefixOf (c :: rest) then some ((c :: rest).drop pat.length)
      else none

/-- `SentenceDetector._is_url_context`: some URL pattern occurs in the
lowercased prefix with no space after its last occurrence. -/
def isUrlContext (before : List Char) : Bool :=
  let lower := before.map Char.toLower
  [("http://" : String).data, ("https://" : String).data,
   ("www." : String).data, ("ftp://" : String).data].any (fun pat =>
    match afterLastOcc pat lower with
    | some after => !(after.contains ' ')
    | none => false)

/-- `SentenceDetector._is_decimal_context`: digit immediately before the
period and digit immediately after it. -/
def isDecimalContext (buf : List Char) (index : Nat) : Bool :=
  let before := buf.take index
  if before = [] then false
  else if (before.getLastD ' ').isDigit then
    decide (index + 1 < buf.length) && (buf.getD (index + 1) ' ').isDigit
  else false

/-- `SentenceDetector._is_ellipsis_context`: two periods immediately before,
or one period immediately after. -/
def isEllipsisContext (buf : List Char) (index : Nat) : Bool :=
  if 2 ≤ index && buf.getD (index - 1) ' ' = '.' && buf.getD (index - 2) ' ' = '.' then
    true
  else
    decide (index + 1 < buf.length) && buf.getD (index + 1) ' ' = '.'

/-- Python `str.split()` with no argument: whitespace-delimited words,
empty runs dropped. -/
def pySplitWsAux (cur : List Char) : List Char → List (List Char)
  | [] => if cur = [] then [] else [cur.reverse]
  | c :: rest =>
    if pyIsSpace c then
      if cur = [] then pySplitWsAux [] rest
      else cur.reverse :: pySplitWsAux [] rest
    else pySplitWsAux (c :: cur) rest

def pySplitWs (s : List Char) : List (List Char) := pySplitWsAux [] s

/-- The last whitespace-delimited word of `before`, lowercased, with
trailing periods stripped (`words[-1].lower().rstrip('.')`), or `none`
when there is no word. -/
def lastWordNorm (before : List Char) : Option (List Char) :=
  match (pySplitWs before).getLast? with
  | none => none
  | some w => some (((w.map Char.toLower).reverse.dropWhile (· = '.')).reverse)

/-- Python `str.isalpha()`: non-empty and all alphabetic. -/
def pyIsAlphaW (w : List Char) : Bool := !w.isEmpty && w.all Char.isAlpha

/-- `SentenceDetector._is_abbreviation_context`. -/
def isAbbreviationContext (before : List Char) : Bool :=
  match lastWordNorm before with
  | none => false
  | some lw =>
    if ABBREVIATIONS.contains lw then true
    else decide (lw.length ≤ 2) && pyIsAlphaW lw

/-- `SentenceDetector._is_period_sentence_end`. -/
def isPeriodSentenceEnd (buf : List Char) (index : Nat) : Bool :=
  if index = 0 then false
  else
    let before := buf.take index
    if isUrlContext before then false
    else if isDecimalContext buf index then false
    else if isEllipsisContext buf index then false
    else if isAbbreviationContext before then false
    else true

/-- `SentenceDetector._is_valid_sentence_end`. -/
def isValidSentenceEnd (buf : List Char) (index : Nat) : Bool :=
  if buf.length ≤ index + 1 then false
  else
    let char := buf.getD index ' '
    let nextChar := buf.getD (index + 1) ' '
    if char = '.' && !isPeriodSentenceEnd buf index then false
    else if (char = '!' || char = '?') &&
            (decide (index + 1 < buf.length) && (buf.getD (index + 1) ' ' = '!' || buf.getD (index + 1) ' ' = '?')) then
      false
    else if nextChar = ' ' then
      -- every branch of the Python `if next_char == ' '` block returns True
      if index + 2 < buf.length then
        let afterSpace := buf.getD (index + 2) ' '
        if afterSpace.isUpper || afterSpace = '"' || afterSpace = '\'' || afterSpace = '(' then true
        else if afterSpace.isAlpha then true
        else true
      else true
    else if nextChar = '"' || nextChar = '\'' || nextChar = ')' then
      if index + 2 < buf.length then
        decide (buf.getD (index + 2) ' ' = ' ')
      else false
    else false

/-- `SentenceDetector._find_sentence_boundary`: first index holding a
sentence-ending character that is a valid sentence end. -/
def findBoundary (buf : List Char) : Option Nat :=
  (List.range buf.length).find? (fun i =>
    sentenceEndings.contains (buf.getD i ' ') && isValidSentenceEnd buf i)

/-- One pass of the `while` loop in `_extract_sentences`, with explicit fuel;
each iteration removes at least one character from the buffer, so fuel equal
to the buffer length makes the fuel version coincide with the loop. -/
def extractLoop : Nat → List Char → List (List Char) × List Char
  | 0, buf => ([], buf)
  | fuel + 1, buf =>
    match findBoundary buf with
    | none => ([], buf)
    | some b =>
      let sentence := pyStripL (buf.take (b + 1))
      let rest := pyLstrip (buf.drop (b + 1))
      let (ss, final) := extractLoop fuel rest
      (if sentence = [] then ss else sentence :: ss, final)

/-- `SentenceDetector._extract_sentences` acting on an explicit buffer,
returning the emitted sentences and the remaining buffer. -/
def extractSentences (buf : List Char) : List (List Char) × List Char :=
  extractLoop buf.length buf

/-- `SentenceDetector.add_token`: append the token, then extract. -/
def addToken (buf tok : List Char) : List (List Char) × List Char :=
  extractSentences (buf ++ tok)

/-- `SentenceDetector.flush`: the stripped buffer if non-empty (clearing the
buffer), else `none` (buffer left as is). -/
def flush (buf : List Char) : Option (List Char) × List Char :=
  if pyStripL buf = [] then (none, buf) else (some (pyStripL buf), [])

end SentenceDetector

/-- `split_into_sentences` from utils.py: a fresh detector fed the whole
text in one token, then flushed. -/
def splitIntoSentences (text : List Char) : List (List Char) :=
  let (ss, buf) := SentenceDetector.extractSentences text
  match (SentenceDetector.flush buf).1 with
  | some f => ss ++ [f]
  | none => ss

/-! ## JSON values and Python dict/iteration semantics -/

/-- JSON values as produced by `json.loads` (Python distinguishes booleans,
integers and floats, so the embedding does too). -/
inductive JValue where
  | null
  | bool (b : Bool)
  | int (n : ℤ)
  | float (q : ℚ)
  | str (s : String)
  | arr (xs : List JValue)
  | obj (kvs : List (String × JValue))

/-- An already-known-to-be-a-dict judge value: its key/value pairs. -/
abbrev JObj := List (String × JValue)

/-- Python `v.get(k, d)`: raises `AttributeError` unless `v` is a dict. -/
def pyGetD (v : JValue) (k : String) (d : JValue) : Except String JValue :=
  match v with
  | .obj kvs => pure ((kvs.lookup k).getD d)
  | _ => .error "AttributeError"

/-- Python iteration `for x in v`: lists yield elements, strings yield
one-character strings, dicts yield their keys, everything else raises
`TypeError`. -/
def jIter : JValue → Except String (List JValue)
  | .arr xs => pure xs
  | .str s => pure (s.data.map (fun c => .str (String.mk [c])))
  | .obj kvs => pure (kvs.map (fun p => .str p.1))
  | _ => .error "TypeError"

/-- Whether a judge value may be used as a Python dict key (lists and dicts
are unhashable and raise `TypeError`). -/
def hashableKey : JValue → Bool
  | .arr _ => false
  | .obj _ => false
  | _ => true

/-- Python `==` between a judge dict key and a rubric integer id
(`True == 1`, `3.0 == 3`, strings never equal ints). -/
def pyNumEqInt : JValue → ℤ → Bool
  | .int n, m => n = m
  | .float q, m => q = (m : ℚ)
  | .bool b, m => (if b then (1 : ℤ) else 0) = m
  | _, _ => false

/-- Lookup in a keyed association built from a Python dict comprehension:
later insertions with an equal key overwrite earlier ones, so the last
matching entry wins. -/
def lookupKeyed (keyed : List (JValue × β)) (id : ℤ) : Option β :=
  ((keyed.filter (fun p => pyNumEqInt p.1 id)).getLast?).map (fun p => p.2)

/-- Dict comprehension `{x[keyField]: x for x in items if isinstance(x, dict)
and keyField in x}` (raises on unhashable keys, left to right). -/
def buildKeyedReq (keyField : String) : List JValue → Except String (List (JValue × JObj))
  | [] => pure []
  | c :: rest =>
    match c with
    | .obj kvs =>
      match kvs.lookup keyField with
      | some k =>
        if hashableKey k then do
          let tail ← buildKeyedReq keyField rest
          pure ((k, kvs) :: tail)
        else .error "TypeError"
      | none => buildKeyedReq keyField rest
    | _ => buildKeyedReq keyField rest

/-- Dict comprehension `{x.get(keyField): x for x in items if
isinstance(x, dict)}` (missing key defaults to `None`). -/
def buildKeyedOpt (keyField : String) : List JValue → Except String (List (JValue × JObj))
  | [] => pure []
  | c :: rest =>
    match c with
    | .obj kvs =>
      let k := (kvs.lookup keyField).getD .null
      if hashableKey k then do
        let tail ← buildKeyedOpt keyField rest
        pure ((k, kvs) :: tail)
      else .error "TypeError"
    | _ => buildKeyedOpt keyField rest

/-- Python `int(v)` on a judge value: identity on ints, `False/True ↦ 0/1`,
truncation on floats, digit-string parsing, `TypeError`/`ValueError`
otherwise.  (String parsing is modelled for optionally signed digit strings
surrounded by whitespace, which is the JSON-relevant fragment.) -/
def pyIntCoerce : JValue → Except String ℤ
  | .int n => pure n
  | .bool b => pure (if b then 1 else 0)
  | .float q => pure (pyTrunc q)
  | .str s =>
    let t := pyStripL s.data
    let (sign, digits) :=
      match t with
      | '-' :: rest => ((-1 : ℤ), rest)
      | '+' :: rest => ((1 : ℤ), rest)
      | _ => ((1 : ℤ), t)
    if digits ≠ [] && digits.all Char.isDigit then
      pure (sign * (digits.foldl (fun acc c => acc * 10 + (c.toNat - '0'.toNat : ℤ)) 0))
    else .error "ValueError"
  | _ => .error "TypeError"

/-- Python `bool(v)` on a judge value (never raises). -/
def pyBoolCoerce : JValue → Bool
  | .null => false
  | .bool b => b
  | .int n => n ≠ 0
  | .float q => q ≠ 0
  | .str s => s ≠ ""
  | .arr xs => !xs.isEmpty
  | .obj kvs => !kvs.isEmpty

/-! ## Legacy category normalizer

Embedding of `CategoryRubricEvaluator._normalize_response` and
`CategoryRubricEvaluator.evaluate` from evaluators.py.  The rubric produced
by `load_activity_rubric` is typed (ids are database integers). -/

structure LegacySub where
  subcategory_id : ℤ
  name : String

structure LegacyCat where
  category_id : ℤ
  name : String
  required_to_pass : ℤ
  criteria : List LegacySub

structure OutSub where
  subcategory_id : ℤ
  name : String
  score : ℤ
  message_indices : JValue
  quotes : JValue
  rewrite_if_missing : JValue

structure OutCat where
  category_id : ℤ
  name : String
  score : ℤ
  required_to_pass : ℤ
  passed : Bool
  criteria : List OutSub

structure CatResult where
  categories : List OutCat
  total_score : ℤ
  passed : Bool

/-- `score = int(score) if isinstance(score, int) else 0` — note that Python
`bool` is a subclass of `int`, and that there is no clamping here. -/
def coerceScoreCat : JValue → ℤ
  | .int n => n
  | .bool b => if b then 1 else 0
  | _ => 0

/-- The inner loop over `cat["criteria"]`, returning the normalized
criteria together with the accumulated `cat_score`. -/
def normSubs (bySub : List (JValue × JObj)) : List LegacySub → Except String (List OutSub × ℤ)
  | [] => pure ([], 0)
  | sub :: rest => do
    let item := (lookupKeyed bySub sub.subcategory_id).getD []
    let score := coerceScoreCat ((item.lookup "score").getD (.int 0))
    let ev := (item.lookup "evidence").getD (.obj [])
    let mi ← pyGetD ev "message_indices" (.arr [])
    let qs ← pyGetD ev "quotes" (.arr [])
    let rw := (item.lookup "rewrite_if_missing").getD (.str "")
    let (outs, restScore) ← normSubs bySub rest
    pure (⟨sub.subcategory_id, sub.name, score, mi, qs, rw⟩ :: outs, score + restScore)

/-- The outer loop over the rubric categories, returning the normalized
categories together with the accumulated `total_score`. -/
def normCats (byCat : List (JValue × JObj)) : List LegacyCat → Except String (List OutCat × ℤ)
  | [] => pure ([], 0)
  | cat :: rest => do
    let picked := (lookupKeyed byCat cat.category_id).getD []
    let critIn : List JValue :=
      match (picked.lookup "criteria").getD (.arr []) with
      | .arr xs => xs
      | _ => []
    let bySub ← buildKeyedOpt "subcategory_id" critIn
    let (critOut, catScore) ← normSubs bySub cat.criteria
    let required := cat.required_to_pass
    let passed := if required = 0 then true else decide (catScore ≥ required)
    let (outRest, restScore) ← normCats byCat rest
    pure (⟨cat.category_id, cat.name, catScore, required, passed, critOut⟩ :: outRest,
          catScore + restScore)

/-- `CategoryRubricEvaluator._normalize_response(data, rubric)`.  The
judge-supplied `overall.total_score` and `overall.passed` are used when
present; the recomputed values are only the `.get` defaults. -/
def catNormalize (data : JValue) (rubric : List LegacyCat) : Except String CatResult := do
  let catsV ← pyGetD data "categories" (.arr [])
  let cs ← jIter catsV
  let byCat ← buildKeyedReq "category_id" cs
  let (outCats, totalScore) ← normCats byCat rubric
  let overallV ← pyGetD data "overall" (.obj [])
  let tsV ← pyGetD overallV "total_score" (.int totalScore)
  let ts ← pyIntCoerce tsV
  let pV ← pyGetD overallV "passed" (.bool (outCats.all (fun c => c.passed)))
  pure ⟨outCats, ts, pyBoolCoerce pV⟩

/-- `CategoryRubricEvaluator.evaluate`: the judge call (transport, HTTP
status check, body JSON parsing) is abstracted as `judge : Option JValue`;
`none` stands for any exception inside the `try` block, which the code
converts into the zero result.  An empty rubric short-circuits before the
judge is consulted. -/
def catEvaluate (rubric : List LegacyCat) (judge : Option JValue) : Except String CatResult :=
  if rubric.isEmpty then .ok ⟨[], 0, true⟩
  else
    match judge with
    | none => .ok ⟨[], 0, false⟩
    | some data => catNormalize data rubric

/-! ## Rubric-pack (hierarchical) normalizer

Embedding of `RubricPackEvaluator._normalize_response` and
`RubricPackEvaluator.evaluate` from evaluators.py. -/

structure PackCrit where
  criterion_id : ℤ
  text : String
  weight : ℚ
  is_required : Bool

structure PackSection where
  section_id : ℤ
  name : String
  code : String
  criteria : List PackCrit

structure PackTemplate where
  template_id : ℤ
  name : String
  internal_code : String
  track_type : String
  framework_code : String
  framework_name : String
  sections : List PackSection

structure PackRubric where
  pack_id : ℤ
  pack_name : String
  templates : List PackTemplate

structure OutPackCrit where
  criterion_id : ℤ
  text : String
  is_required : Bool
  weight : ℚ
  score : ℤ
  message_indices : JValue
  quotes : JValue
  rewrite_if_missing : JValue

structure OutSection where
  section_id : ℤ
  name : String
  code : String
  score : ℤ
  max_score : ℤ
  criteria : List OutPackCrit

structure OutTemplate where
  template_id : ℤ
  name : String
  internal_code : String
  track_type : String
  framework_code : String
  framework_name : String
  sections : List OutSection
  template_score : ℤ
  template_max_score : ℤ

structure PackOverall where
  total_score : ℤ
  max_score : ℤ
  percentage : ℚ
  passed : Bool
  required_criteria_met : Bool

structure PackResult where
  pack : Option (ℤ × String)
  templates : List OutTemplate
  overall : PackOverall

/-- `score = int(score) if isinstance(score, (int, float)) else 0` — floats
truncate toward zero, booleans count as ints. -/
def coerceScorePack : JValue → ℤ
  | .int n => n
  | .bool b => if b then 1 else 0
  | .float q => pyTrunc q
  | _ => 0

/-- `max(0, min(2, score))`. -/
def clamp02 (n : ℤ) : ℤ := max 0 (min 2 n)

/-- The AI-response lookup for criteria of one section
(`ai_criteria[c["criterion_id"]] = c`). -/
def buildAiCrits (cs : List JValue) : Except String (List (JValue × JObj)) :=
  buildKeyedReq "criterion_id" cs

/-- The AI-response lookup for sections of one template
(`ai_sections[s["section_id"]] = ai_criteria`); iterating a non-list
`criteria` value raises. -/
def buildAiSecs : List JValue → Except String (List (JValue × List (JValue × JObj)))
  | [] => pure []
  | s :: rest =>
    match s with
    | .obj kvs =>
      match kvs.lookup "section_id" with
      | some k => do
        let cs ← jIter ((kvs.lookup "criteria").getD (.arr []))
        let aiCrits ← buildAiCrits cs
        if hashableKey k then do
          let tail ← buildAiSecs rest
          pure ((k, aiCrits) :: tail)
        else .error "TypeError"
      | none => buildAiSecs rest
    | _ => buildAiSecs rest

/-- The AI-response lookup keyed by template id
(`ai_templates[t["template_id"]] = ai_sections`). -/
def buildAiTemplates : List JValue → Except String (List (JValue × List (JValue × List (JValue × JObj))))
  | [] => pure []
  | t :: rest =>
    match t with
    | .obj kvs =>
      match kvs.lookup "template_id" with
      | some k => do
        let ss ← jIter ((kvs.lookup "sections").getD (.arr []))
        let aiSecs ← buildAiSecs ss
        if hashableKey k then do
          let tail ← buildAiTemplates rest
          pure ((k, aiSecs) :: tail)
        else .error "TypeError"
      | none => buildAiTemplates rest
    | _ => buildAiTemplates rest

/-- The loop over one section's criteria: normalized criteria, the exact
`section_score` and `section_max` accumulators (floats, modelled as `ℚ`),
and whether every required criterion in the list scored 2. -/
def normPackCrits (aiSec : List (JValue × JObj)) :
    List PackCrit → Except String (List OutPackCrit × ℚ × ℚ × Bool)
  | [] => pure ([], 0, 0, true)
  | c :: rest => do
    let aiCrit := (lookupKeyed aiSec c.criterion_id).getD []
    let score := clamp02 (coerceScorePack ((aiCrit.lookup "score").getD (.int 0)))
    let ev := (aiCrit.lookup "evidence").getD (.obj [])
    let mi ← pyGetD ev "message_indices" (.arr [])
    let qs ← pyGetD ev "quotes" (.arr [])
    let rw := if score < 2 then (aiCrit.lookup "rewrite_if_missing").getD .null else .null
    let (outs, s, m, req) ← normPackCrits aiSec rest
    pure (⟨c.criterion_id, c.text, c.is_required, c.weight, score, mi, qs, rw⟩ :: outs,
          (score : ℚ) * c.weight + s, 2 * c.weight + m,
          (!(c.is_required && decide (score < 2))) && req)

/-- The loop over one template's sections: per-section output plus the
`template_score`/`template_max` accumulators and the required flag. -/
def normPackSecs (aiTmpl : List (JValue × List (JValue × JObj))) :
    List PackSection → Except String (List OutSection × ℚ × ℚ × Bool)
  | [] => pure ([], 0, 0, true)
  | sec :: rest => do
    let aiSec := (lookupKeyed aiTmpl sec.section_id).getD []
    let (critOut, s, m, req) ← normPackCrits aiSec sec.criteria
    let (outRest, ts, tm, reqRest) ← normPackSecs aiTmpl rest
    pure (⟨sec.section_id, sec.name, sec.code, pyTrunc s, pyTrunc m, critOut⟩ :: outRest,
          s + ts, m + tm, req && reqRest)

/-- The loop over the rubric templates: per-template output plus the
`total_score`/`max_score` accumulators and the required flag. -/
def normPackTmpls (aiT : List (JValue × List (JValue × List (JValue × JObj)))) :
    List PackTemplate → Except String (List OutTemplate × ℚ × ℚ × Bool)
  | [] => pure ([], 0, 0, true)
  | t :: rest => do
    let aiTmpl := (lookupKeyed aiT t.template_id).getD []
    let (secOut, s, m, req) ← normPackSecs aiTmpl t.sections
    let (outRest, ts, tm, reqRest) ← normPackTmpls aiT rest
    pure (⟨t.template_id, t.name, t.internal_code, t.track_type, t.framework_code,
           t.framework_name, secOut, pyTrunc s, pyTrunc m⟩ :: outRest,
          s + ts, m + tm, req && reqRest)

/-- `RubricPackEvaluator._normalize_response(data, rubric)`.  All aggregates
come from the recursive walk of the canonical rubric; the pass decision uses
the unrounded percentage, while the reported `percentage` field is rounded
to one decimal. -/
def packNormalize (data : JValue) (rubric : PackRubric) : Except String PackResult := do
  let tsV ← pyGetD data "templates" (.arr [])
  let ts ← jIter tsV
  let aiTemplates ← buildAiTemplates ts
  let (outTemplates, totalScore, maxScore, allRequiredMet) ← normPackTmpls aiTemplates rubric.templates
  let percentage : ℚ := if maxScore > 0 then totalScore / maxScore * 100 else 0
  let passed := decide (percentage ≥ 60) && allRequiredMet
  pure ⟨some (rubric.pack_id, rubric.pack_name), outTemplates,
        ⟨pyTrunc totalScore, pyTrunc maxScore, pyRound1 percentage, passed, allRequiredMet⟩⟩

/-- `RubricPackEvaluator.evaluate`: `rubric = none` models
`load_activity_rubric` returning `{}` (missing activity or no rubric pack);
a present rubric with no templates also short-circuits to the trivially
passed empty result.  The judge call is abstracted as `judge : Option
JValue`, `none` standing for any exception inside the `try` block. -/
def packEvaluate (rubric : Option PackRubric) (judge : Option JValue) : Except String PackResult :=
  match rubric with
  | none => .ok ⟨none, [], ⟨0, 0, 0, true, true⟩⟩
  | some r =>
    if r.templates.isEmpty then .ok ⟨none, [], ⟨0, 0, 0, true, true⟩⟩
    else
      match judge with
      | none => .ok ⟨some (r.pack_id, r.pack_name), [], ⟨0, 0, 0, false, false⟩⟩
      | some data => packNormalize data r

/-! ## Transcript builders

Embedding of `CategoryRubricEvaluator.build_transcript` (indexed mode) and
`SimpleRubricEvaluator.build_transcript` (simple mode). -/

/-- One raw conversation turn: a Python dict with optional `role`,
`message` and `content` string fields. -/
structure Msg where
  role : Option String
  message : Option String
  content : Option String

/-- Python `msg.get("message") or msg.get("content") or ""` (empty strings
and `None` are falsy). -/
def pyOrStr (a b : Option String) : String :=
  let av := a.getD ""
  if av ≠ "" then av
  else
    let bv := b.getD ""
    if bv ≠ "" then bv else ""

/-- `(msg.get("message") or msg.get("content") or "").strip()`. -/
def msgText (m : Msg) : String := pyStripS (pyOrStr m.message m.content)

/-- `(msg.get("role") or "").strip()`. -/
def msgRole (m : Msg) : String := pyStripS (m.role.getD "")

/-- The speaker label of the indexed mode: `user ↦ DOCTOR`, everything
else `PATIENT`. -/
def msgWho (m : Msg) : String := if msgRole m = "user" then "DOCTOR" else "PATIENT"

/-- The lines of the indexed transcript before character truncation: one
line per non-empty turn of the already-truncated turn list, prefixed with
the enumeration index in that list. -/
def transcriptLines (messages : List Msg) (maxTurns : Nat) : List String :=
  (pyTakeLast maxTurns messages).enum.filterMap (fun p =>
    let text := msgText p.2
    if text = "" then none
    else some ("[" ++ toString p.1 ++ "] " ++ msgWho p.2 ++ ": " ++ text))

/-- `CategoryRubricEvaluator.build_transcript(messages, max_turns, max_chars)`. -/
def buildTranscript (messages : List Msg) (maxTurns maxChars : Nat) : String :=
  let transcript := String.intercalate "\n" (transcriptLines messages maxTurns)
  if transcript.length > maxChars then pyTakeLastS maxChars transcript else transcript

/-- The lines of the simple (legacy) transcript: no index, pass-through
role label. -/
def transcriptLinesSimple (messages : List Msg) (maxTurns : Nat) : List String :=
  (pyTakeLast maxTurns messages).filterMap (fun m =>
    let text := msgText m
    if text = "" then none
    else some (msgRole m ++ ": " ++ text))

/-- `SimpleRubricEvaluator.build_transcript(messages, max_turns, max_chars)`. -/
def buildTranscriptSimple (messages : List Msg) (maxTurns maxChars : Nat) : String :=
  let transcript := String.intercalate "\n" (transcriptLinesSimple messages maxTurns)
  if transcript.length > maxChars then pyTakeLastS maxChars transcript else transcript

/-! ## Derived views of normalized outputs, used to state theorems -/

/-- The leaf entry produced for a criterion with no matching judge entry in
the legacy normalizer: score 0, empty evidence lists, empty rewrite. -/
def OutSub.isDefault (o : OutSub) : Prop :=
  o.score = 0 ∧ o.message_indices = .arr [] ∧ o.quotes = .arr [] ∧
  o.rewrite_if_missing = .str ""

/-- The leaf entry produced for a criterion with no matching judge entry in
the hierarchical normalizer: score 0, empty evidence lists, no rewrite. -/
def OutPackCrit.isDefault (o : OutPackCrit) : Prop :=
  o.score = 0 ∧ o.message_indices = .arr [] ∧ o.quotes = .arr [] ∧
  o.rewrite_if_missing = .null

/-- The exact weighted score of a normalized section, recomputed from its
own leaves. -/
def OutSection.rawScore (s : OutSection) : ℚ :=
  (s.criteria.map (fun c => (c.score : ℚ) * c.weight)).sum

/-- The exact weighted maximum of a normalized section, recomputed from its
own leaves. -/
def OutSection.rawMax (s : OutSection) : ℚ :=
  (s.criteria.map (fun c => (2 : ℚ) * c.weight)).sum

def OutTemplate.rawScore (t : OutTemplate) : ℚ := (t.sections.map OutSection.rawScore).sum

def OutTemplate.rawMax (t : OutTemplate) : ℚ := (t.sections.map OutSection.rawMax).sum

def PackResult.rawScore (r : PackResult) : ℚ := (r.templates.map OutTemplate.rawScore).sum

def PackResult.rawMax (r : PackResult) : ℚ := (r.templates.map OutTemplate.rawMax).sum

/-- All leaf entries of a normalized hierarchical result, in order. -/
def PackResult.allLeaves (r : PackResult) : List OutPackCrit :=
  r.templates.flatMap (fun t => t.sections.flatMap (fun s => s.criteria))

/-- Whether every required leaf of a normalized result scored exactly 2. -/
def PackResult.requiredMetRecomputed (r : PackResult) : Bool :=
  r.templates.all (fun t => t.sections.all (fun s =>
    s.criteria.all (fun c => !c.is_required || decide (c.score = 2))))

/-- The unrounded percentage the pass decision is made against. -/
def rawPercentage (total maxScore : ℚ) : ℚ :=
  if maxScore > 0 then total / maxScore * 100 else 0

/-! ## Concrete fixtures used by witnesses and counterexamples -/

/-- A small legacy rubric: one category (threshold 3) with two subcategories. -/
def rubricL1 : List LegacyCat := [⟨1, "Communication", 3, [⟨10, "Empathy"⟩, ⟨11, "Clarity"⟩]⟩]

/-- A pack rubric matching the spec's aggregate example: one template with
two sections of two weight-1 criteria each. -/
def packR1 : PackRubric :=
  ⟨5, "Pack", [⟨100, "T", "ic", "core", "F", "Fw",
    [⟨1, "S1", "s1", [⟨11, "c11", 1, false⟩, ⟨12, "c12", 1, false⟩]⟩,
     ⟨2, "S2", "s2", [⟨21, "c21", 1, false⟩, ⟨22, "c22", 1, false⟩]⟩]⟩]⟩

/-- Five weight-1 criteria: judge scores `[2,2,2,0,0]` give exactly 60%. -/
def packR60 : PackRubric :=
  ⟨6, "P60", [⟨200, "T", "ic", "core", "F", "Fw",
    [⟨9, "S", "s", [⟨1, "a", 1, false⟩, ⟨2, "b", 1, false⟩, ⟨3, "c", 1, false⟩,
                    ⟨4, "d", 1, false⟩, ⟨5, "e", 1, false⟩]⟩]⟩]⟩

/-- Weights 5999 and 4001: scoring 2 on the first gives exactly 59.99%. -/
def packR5999 : PackRubric :=
  ⟨7, "P59", [⟨300, "T", "ic", "core", "F", "Fw",
    [⟨9, "S", "s", [⟨1, "a", 5999, false⟩, ⟨2, "b", 4001, false⟩]⟩]⟩]⟩

/-- Judge response scoring `[2,2,2,0,0]` against `packR60`. -/
def judge60 : JValue :=
  .obj [("templates", .arr [.obj [("template_id", .int 200), ("sections", .arr [
    .obj [("section_id", .int 9), ("criteria", .arr [
      .obj [("criterion_id", .int 1), ("score", .int 2)],
      .obj [("criterion_id", .int 2), ("score", .int 2)],
      .obj [("criterion_id", .int 3), ("score", .int 2)],
      .obj [("criterion_id", .int 4), ("score", .int 0)],
      .obj [("criterion_id", .int 5), ("score", .int 0)]])]])]])]

/-- Judge response scoring `[2,0]` against `packR5999`. -/
def judge5999 : JValue :=
  .obj [("templates", .arr [.obj [("template_id", .int 300), ("sections", .arr [
    .obj [("section_id", .int 9), ("criteria", .arr [
      .obj [("criterion_id", .int 1), ("score", .int 2)],
      .obj [("criterion_id", .int 2), ("score", .int 0)]])]])]])]

/-- Fifty non-empty doctor turns `m0 … m49`. -/
def msgs50 : List Msg :=
  (List.range 50).map (fun i => ⟨some "user", some ("m" ++ toString i), none⟩)

/-- The payload of an `ok` outcome, with a fallback (used to name concrete
normalization results in witnesses). -/
def getOkD {α : Type} (e : Except String α) (d : α) : α :=
  match e with
  | .ok a => a
  | .error _ => d

def emptyCatResult : CatResult := ⟨[], 0, false⟩

def emptyPackResult : PackResult := ⟨none, [], ⟨0, 0, 0, false, false⟩⟩

/-- The normalized result of `judge60` against `packR60`. -/
def out60 : PackResult := getOkD (packNormalize judge60 packR60) emptyPackResult

/-- The normalized result of `judge5999` against `packR5999`. -/
def out5999 : PackResult := getOkD (packNormalize judge5999 packR5999) emptyPackResult

/-- A judge response giving criterion 11 a perfect score together with a
rewrite suggestion. -/
def judgeC6 : JValue :=
  .obj [("templates", .arr [.obj [("template_id", .int 100), ("sections", .arr [
    .obj [("section_id", .int 1), ("criteria", .arr [
      .obj [("criterion_id", .int 11), ("score", .int 2),
            ("rewrite_if_missing", .str "boo")]])]])]])]

/-- The normalized result of `judgeC6` against `packR1`. -/
def outC6 : PackResult := getOkD (packNormalize judgeC6 packR1) emptyPackResult

/-- The legacy normalization of an empty judge object against `rubricL1`. -/
def outC1cat : CatResult := getOkD (catNormalize (.obj []) rubricL1) emptyCatResult

/-- The hierarchical normalization of an empty judge object against `packR1`. -/
def outC1pack : PackResult := getOkD (packNormalize (.obj []) packR1) emptyPackResult

/-! ## Structural lemmas about the normalizers -/

theorem forall₂_map_eq {α β γ : Type} {R : α → β → Prop} {l₁ : List α} {l₂ : List β}
    (f : α → γ) (g : β → γ) (hfg : ∀ a b, R a b → g b = f a) :
    List.Forall₂ R l₁ l₂ → l₂.map g = l₁.map f := by
  intro h
  induction h with
  | nil => rfl
  | cons hr _ ih => simp [ih, hfg _ _ hr]

theorem forall₂_right_mem {α β : Type} {R : α → β → Prop} {P : β → Prop} {l₁ : List α} {l₂ : List β}
    (hP : ∀ a b, R a b → P b) : List.Forall₂ R l₁ l₂ → ∀ b ∈ l₂, P b := by
  intro h
  induction h with
  | nil => simp
  | cons hr _ ih =>
    intro b hb
    rcases hb with _ | hb
    · exact hP _ _ hr
    · exact ih _ (by assumption)

theorem clamp02_nonneg (n : ℤ) : 0 ≤ clamp02 n := le_max_left 0 _

theorem clamp02_le_two (n : ℤ) : clamp02 n ≤ 2 := by
  simp only [clamp02]
  rcases le_or_lt n 2 with h | h
  · simp [min_eq_left h]
  · simp [min_eq_right h.le]

theorem lookupKeyed_nil {β : Type} (id : ℤ) : lookupKeyed ([] : List (JValue × β)) id = none := rfl

theorem normSubs_spec (bySub : List (JValue × JObj)) :
    ∀ (subs : List LegacySub) (outs : List OutSub) (s : ℤ),
      normSubs bySub subs = .ok (outs, s) →
      List.Forall₂ (fun (sub : LegacySub) (o : OutSub) =>
        o.subcategory_id = sub.subcategory_id ∧ o.name = sub.name ∧
        (lookupKeyed bySub sub.subcategory_id = none → o.isDefault)) subs outs ∧
      s = (outs.map (fun o => o.score)).sum := by
  intro subs
  induction subs with
  | nil =>
    intro outs s h
    simp only [normSubs, pure, Except.pure] at h
    injection h with h
    injection h with h1 h2
    subst h1; subst h2
    exact ⟨List.Forall₂.nil, rfl⟩
  | cons sub rest ih =>
    intro outs s h
    simp only [normSubs] at h
    cases hmi : pyGetD (((((lookupKeyed bySub sub.subcategory_id).getD []).lookup "evidence").getD (.obj []))) "message_indices" (.arr []) with
    | error e =>
      rw [hmi] at h
      simp only [bind, Except.bind] at h
      exact absurd h (by simp)
    | ok mi =>
      rw [hmi] at h
      cases hqs : pyGetD (((((lookupKeyed bySub sub.subcategory_id).getD []).lookup "evidence").getD (.obj []))) "quotes" (.arr []) with
      | error e =>
        rw [hqs] at h
        simp only [bind, Except.bind] at h
        exact absurd h (by simp)
      | ok qs =>
        rw [hqs] at h
        cases hrec : normSubs bySub rest with
        | error e =>
          rw [hrec] at h
          simp only [bind, Except.bind, Functor.map, Except.map] at h
          exact absurd h (by simp)
        | ok p =>
          rw [hrec] at h
          obtain ⟨outs', restScore⟩ := p
          simp only [bind, Except.bind, Functor.map, Except.map, pure, Except.pure] at h
          injection h with h
          injection h with h1 h2
          subst h1
          obtain ⟨hf, hs⟩ := ih outs' restScore hrec
          refine ⟨List.Forall₂.cons ⟨rfl, rfl, ?_⟩ hf, ?_⟩
          · intro hnone
            rw [hnone] at hmi hqs
            simp only [pyGetD, Option.getD, List.lookup, pure, Except.pure] at hmi hqs
            injection hmi with hmi
            injection hqs with hqs
            refine ⟨?_, hmi.symm, hqs.symm, ?_⟩
            · simp [hnone, coerceScoreCat, List.lookup]
            · simp [hnone, List.lookup]
          · rw [← h2, hs]
            simp

theorem normCats_spec (byCat : List (JValue × JObj)) :
    ∀ (cats : List LegacyCat) (outs : List OutCat) (ts : ℤ),
      normCats byCat cats = .ok (outs, ts) →
      List.Forall₂ (fun (cat : LegacyCat) (o : OutCat) =>
        o.category_id = cat.category_id ∧ o.name = cat.name ∧
        o.required_to_pass = cat.required_to_pass ∧
        o.criteria.map (fun c => c.subcategory_id) = cat.criteria.map (fun c => c.subcategory_id) ∧
        o.criteria.map (fun c => c.name) = cat.criteria.map (fun c => c.name) ∧
        o.score = (o.criteria.map (fun c => c.score)).sum ∧
        o.passed = (if cat.required_to_pass = 0 then true else decide (o.score ≥ cat.required_to_pass)))
        cats outs ∧
      ts = (outs.map (fun o => o.score)).sum := by
  intro cats
  induction cats with
  | nil =>
    intro outs ts h
    simp only [normCats, pure, Except.pure] at h
    injection h with h
    injection h with h1 h2
    subst h1; subst h2
    exact ⟨List.Forall₂.nil, rfl⟩
  | cons cat rest ih =>
    intro outs ts h
    simp only [normCats] at h
    cases hbs : buildKeyedOpt "subcategory_id"
        (match (((lookupKeyed byCat cat.category_id).getD []).lookup "criteria").getD (.arr []) with
         | .arr xs => xs
         | _ => []) with
    | error e =>
      rw [hbs] at h
      simp only [bind, Except.bind] at h
      exact absurd h (by simp)
    | ok bySub =>
      rw [hbs] at h
      simp only [bind, Except.bind] at h
      cases hns : normSubs bySub cat.criteria with
      | error e =>
        rw [hns] at h
        simp only [bind, Except.bind] at h
        exact absurd h (by simp)
      | ok p =>
        rw [hns] at h
        obtain ⟨critOut, catScore⟩ := p
        cases hrec : normCats byCat rest with
        | error e =>
          rw [hrec] at h
          simp only [bind, Except.bind, Functor.map, Except.map] at h
          exact absurd h (by simp)
        | ok q =>
          rw [hrec] at h
          obtain ⟨outRest, restScore⟩ := q
          simp only [bind, Except.bind, Functor.map, Except.map, pure, Except.pure] at h
          injection h with h
          injection h with h1 h2
          subst h1
          obtain ⟨hf2, hsum⟩ := normSubs_spec bySub cat.criteria critOut catScore hns
          obtain ⟨hfr, hsr⟩ := ih outRest restScore hrec
          refine ⟨List.Forall₂.cons ⟨rfl, rfl, rfl, ?_, ?_, ?_, rfl⟩ hfr, ?_⟩
          · exact forall₂_map_eq _ _ (fun a b hab => hab.1) hf2
          · exact forall₂_map_eq _ _ (fun a b hab => hab.2.1) hf2
          · exact hsum
          · rw [← h2, hsr]
            simp

theorem normPackCrits_spec (aiSec : List (JValue × JObj)) :
    ∀ (crits : List PackCrit) (outs : List OutPackCrit) (s m : ℚ) (req : Bool),
      normPackCrits aiSec crits = .ok (outs, s, m, req) →
      List.Forall₂ (fun (c : PackCrit) (o : OutPackCrit) =>
        o.criterion_id = c.criterion_id ∧ o.text = c.text ∧
        o.is_required = c.is_required ∧ o.weight = c.weight ∧
        0 ≤ o.score ∧ o.score ≤ 2 ∧
        (o.score = 2 → o.rewrite_if_missing = .null) ∧
        (lookupKeyed aiSec c.criterion_id = none → o.isDefault)) crits outs ∧
      s = (outs.map (fun o => (o.score : ℚ) * o.weight)).sum ∧
      m = (outs.map (fun o => (2 : ℚ) * o.weight)).sum ∧
      req = outs.all (fun o => !o.is_required || decide (o.score = 2)) := by
  intro crits
  induction crits with
  | nil =>
    intro outs s m req h
    simp only [normPackCrits, pure, Except.pure] at h
    injection h with h
    injection h with h1 h2
    injection h2 with h2 h3
    injection h3 with h3 h4
    subst h1; subst h2; subst h3; subst h4
    exact ⟨List.Forall₂.nil, rfl, rfl, rfl⟩
  | cons c rest ih =>
    intro outs s m req h
    simp only [normPackCrits] at h
    cases hmi : pyGetD (((((lookupKeyed aiSec c.criterion_id).getD []).lookup "evidence").getD (.obj []))) "message_indices" (.arr []) with
    | error e =>
      rw [hmi] at h
      simp only [bind, Except.bind] at h
      exact absurd h (by simp)
    | ok mi =>
      rw [hmi] at h
      simp only [bind, Except.bind] at h
      cases hqs : pyGetD (((((lookupKeyed aiSec c.criterion_id).getD []).lookup "evidence").getD (.obj []))) "quotes" (.arr []) with
      | error e =>
        rw [hqs] at h
        simp only [bind, Except.bind] at h
        exact absurd h (by simp)
      | ok qs =>
        rw [hqs] at h
        simp only [bind, Except.bind] at h
        cases hrec : normPackCrits aiSec rest with
        | error e =>
          rw [hrec] at h
          simp only [bind, Except.bind, Functor.map, Except.map] at h
          exact absurd h (by simp)
        | ok p =>
          rw [hrec] at h
          obtain ⟨outs', s', m', req'⟩ := p
          simp only [bind, Except.bind, Functor.map, Except.map, pure, Except.pure] at h
          injection h with h
          injection h with h1 h2
          injection h2 with h2 h3
          injection h3 with h3 h4
          subst h1
          obtain ⟨hf, hs, hm, hreq⟩ := ih outs' s' m' req' hrec
          have hb1 := clamp02_nonneg (coerceScorePack ((((lookupKeyed aiSec c.criterion_id).getD []).lookup "score").getD (.int 0)))
          have hb2 := clamp02_le_two (coerceScorePack ((((lookupKeyed aiSec c.criterion_id).getD []).lookup "score").getD (.int 0)))
          refine ⟨List.Forall₂.cons ⟨rfl, rfl, rfl, rfl, hb1, hb2, ?_, ?_⟩ hf, ?_, ?_, ?_⟩
          · intro h2sc
            simp only at h2sc ⊢
            rw [h2sc]
            simp
          · intro hnone
            rw [hnone] at hmi hqs
            simp only [pyGetD, Option.getD, List.lookup, pure, Except.pure] at hmi hqs
            injection hmi with hmi
            injection hqs with hqs
            refine ⟨?_, hmi.symm, hqs.symm, ?_⟩
            · simp [hnone, coerceScorePack, clamp02, List.lookup]
            · simp [hnone, coerceScorePack, clamp02, List.lookup]
          · rw [← h2, hs]; simp
          · rw [← h3, hm]; simp
          · rw [← h4, hreq]
            simp only [List.all_cons]
            congr 1
            rcases eq_or_lt_of_le hb2 with he | hlt
            · rw [he]; simp
            · simp [hlt, ne_of_lt hlt]

theorem normPackSecs_spec (aiTmpl : List (JValue × List (JValue × JObj))) :
    ∀ (secs : List PackSection) (outs : List OutSection) (s m : ℚ) (req : Bool),
      normPackSecs aiTmpl secs = .ok (outs, s, m, req) →
      List.Forall₂ (fun (sec : PackSection) (o : OutSection) =>
        o.section_id = sec.section_id ∧ o.name = sec.name ∧ o.code = sec.code ∧
        o.criteria.map (fun c => c.criterion_id) = sec.criteria.map (fun c => c.criterion_id) ∧
        o.criteria.map (fun c => c.text) = sec.criteria.map (fun c => c.text) ∧
        o.criteria.map (fun c => c.weight) = sec.criteria.map (fun c => c.weight) ∧
        o.criteria.map (fun c => c.is_required) = sec.criteria.map (fun c => c.is_required) ∧
        (∀ c ∈ o.criteria, 0 ≤ c.score ∧ c.score ≤ 2 ∧ (c.score = 2 → c.rewrite_if_missing = .null)) ∧
        o.score = pyTrunc o.rawScore ∧ o.max_score = pyTrunc o.rawMax ∧
        (lookupKeyed aiTmpl sec.section_id = none → ∀ c ∈ o.criteria, c.isDefault)) secs outs ∧
      s = (outs.map OutSection.rawScore).sum ∧
      m = (outs.map OutSection.rawMax).sum ∧
      req = outs.all (fun o => o.criteria.all (fun c => !c.is_required || decide (c.score = 2))) := by
  intro secs
  induction secs with
  | nil =>
    intro outs s m req h
    simp only [normPackSecs, pure, Except.pure] at h
    injection h with h
    injection h with h1 h2
    injection h2 with h2 h3
    injection h3 with h3 h4
    subst h1; subst h2; subst h3; subst h4
    exact ⟨List.Forall₂.nil, rfl, rfl, rfl⟩
  | cons sec rest ih =>
    intro outs s m req h
    simp only [normPackSecs] at h
    cases hcr : normPackCrits ((lookupKeyed aiTmpl sec.section_id).getD []) sec.criteria with
    | error e =>
      rw [hcr] at h
      simp only [bind, Except.bind] at h
      exact absurd h (by simp)
    | ok p =>
      rw [hcr] at h
      obtain ⟨critOut, cs, cm, creq⟩ := p
      simp only [bind, Except.bind] at h
      cases hrec : normPackSecs aiTmpl rest with
      | error e =>
        rw [hrec] at h
        simp only [bind, Except.bind, Functor.map, Except.map] at h
        exact absurd h (by simp)
      | ok q =>
        rw [hrec] at h
        obtain ⟨outRest, rs, rm, rreq⟩ := q
        simp only [bind, Except.bind, Functor.map, Except.map, pure, Except.pure] at h
        injection h with h
        injection h with h1 h2
        injection h2 with h2 h3
        injection h3 with h3 h4
        subst h1
        obtain ⟨hf, hcs, hcm, hcreq⟩ := normPackCrits_spec _ sec.criteria critOut cs cm creq hcr
        obtain ⟨hfr, hrs, hrm, hrreq⟩ := ih outRest rs rm rreq hrec
        have hsecScore : OutSection.rawScore ⟨sec.section_id, sec.name, sec.code, pyTrunc cs, pyTrunc cm, critOut⟩ = cs := by
          simp [OutSection.rawScore, hcs]
        have hsecMax : OutSection.rawMax ⟨sec.section_id, sec.name, sec.code, pyTrunc cs, pyTrunc cm, critOut⟩ = cm := by
          simp [OutSection.rawMax, hcm]
        refine ⟨List.Forall₂.cons ⟨rfl, rfl, rfl, ?_, ?_, ?_, ?_, ?_, ?_, ?_, ?_⟩ hfr, ?_, ?_, ?_⟩
        · exact forall₂_map_eq _ _ (fun a b hab => hab.1) hf
        · exact forall₂_map_eq _ _ (fun a b hab => hab.2.1) hf
        · exact forall₂_map_eq _ _ (fun a b hab => hab.2.2.2.1) hf
        · exact forall₂_map_eq _ _ (fun a b hab => hab.2.2.1) hf
        · exact forall₂_right_mem (fun a b hab => ⟨hab.2.2.2.2.1, hab.2.2.2.2.2.1, hab.2.2.2.2.2.2.1⟩) hf
        · simp only [hsecScore]
        · simp only [hsecMax]
        · intro hnone
          rw [hnone] at hf
          exact forall₂_right_mem (fun a b hab => hab.2.2.2.2.2.2.2 (lookupKeyed_nil a.criterion_id)) hf
        · rw [← h2, hrs]
          simp [hsecScore]
        · rw [← h3, hrm]
          simp [hsecMax]
        · rw [← h4, hrreq, hcreq]
          simp

theorem normPackTmpls_spec (aiT : List (JValue × List (JValue × List (JValue × JObj)))) :
    ∀ (tmpls : List PackTemplate) (outs : List OutTemplate) (s m : ℚ) (req : Bool),
      normPackTmpls aiT tmpls = .ok (outs, s, m, req) →
      List.Forall₂ (fun (t : PackTemplate) (o : OutTemplate) =>
        o.template_id = t.template_id ∧ o.name = t.name ∧
        o.internal_code = t.internal_code ∧ o.track_type = t.track_type ∧
        o.framework_code = t.framework_code ∧ o.framework_name = t.framework_name ∧
        o.sections.map (fun sOut => sOut.section_id) = t.sections.map (fun sec => sec.section_id) ∧
        List.Forall₂ (fun (sec : PackSection) (sOut : OutSection) =>
          sOut.criteria.map (fun c => c.criterion_id) = sec.criteria.map (fun c => c.criterion_id))
          t.sections o.sections ∧
        (∀ sOut ∈ o.sections,
          (∀ c ∈ sOut.criteria, 0 ≤ c.score ∧ c.score ≤ 2 ∧ (c.score = 2 → c.rewrite_if_missing = .null)) ∧
          sOut.score = pyTrunc sOut.rawScore ∧ sOut.max_score = pyTrunc sOut.rawMax) ∧
        o.template_score = pyTrunc o.rawScore ∧ o.template_max_score = pyTrunc o.rawMax ∧
        (lookupKeyed aiT t.template_id = none → ∀ sOut ∈ o.sections, ∀ c ∈ sOut.criteria, c.isDefault))
        tmpls outs ∧
      s = (outs.map OutTemplate.rawScore).sum ∧
      m = (outs.map OutTemplate.rawMax).sum ∧
      req = outs.all (fun t => t.sections.all (fun o =>
        o.criteria.all (fun c => !c.is_required || decide (c.score = 2)))) := by
  intro tmpls
  induction tmpls with
  | nil =>
    intro outs s m req h
    simp only [normPackTmpls, pure, Except.pure] at h
    injection h with h
    injection h with h1 h2
    injection h2 with h2 h3
    injection h3 with h3 h4
    subst h1; subst h2; subst h3; subst h4
    exact ⟨List.Forall₂.nil, rfl, rfl, rfl⟩
  | cons t rest ih =>
    intro outs s m req h
    simp only [normPackTmpls] at h
    cases hsc : normPackSecs ((lookupKeyed aiT t.template_id).getD []) t.sections with
    | error e =>
      rw [hsc] at h
      simp only [bind, Except.bind] at h
      exact absurd h (by simp)
    | ok p =>
      rw [hsc] at h
      obtain ⟨secOut, ss, sm, sreq⟩ := p
      simp only [bind, Except.bind] at h
      cases hrec : normPackTmpls aiT rest with
      | error e =>
        rw [hrec] at h
        simp only [bind, Except.bind, Functor.map, Except.map] at h
        exact absurd h (by simp)
      | ok q =>
        rw [hrec] at h
        obtain ⟨outRest, rs, rm, rreq⟩ := q
        simp only [bind, Except.bind, Functor.map, Except.map, pure, Except.pure] at h
        injection h with h
        injection h with h1 h2
        injection h2 with h2 h3
        injection h3 with h3 h4
        subst h1
        obtain ⟨hf, hss, hsm, hsreq⟩ := normPackSecs_spec _ t.sections secOut ss sm sreq hsc
        obtain ⟨hfr, hrs, hrm, hrreq⟩ := ih outRest rs rm rreq hrec
        have htScore : OutTemplate.rawScore ⟨t.template_id, t.name, t.internal_code, t.track_type,
            t.framework_code, t.framework_name, secOut, pyTrunc ss, pyTrunc sm⟩ = ss := by
          simp only [OutTemplate.rawScore, hss]
        have htMax : OutTemplate.rawMax ⟨t.template_id, t.name, t.internal_code, t.track_type,
            t.framework_code, t.framework_name, secOut, pyTrunc ss, pyTrunc sm⟩ = sm := by
          simp only [OutTemplate.rawMax, hsm]
        refine ⟨List.Forall₂.cons ⟨rfl, rfl, rfl, rfl, rfl, rfl, ?_, ?_, ?_, ?_, ?_, ?_⟩ hfr, ?_, ?_, ?_⟩
        · exact forall₂_map_eq _ _ (fun a b hab => hab.1) hf
        · exact List.Forall₂.imp (fun a b hab => hab.2.2.2.1) hf
        · exact forall₂_right_mem (fun a b hab =>
            ⟨hab.2.2.2.2.2.2.2.1, hab.2.2.2.2.2.2.2.2.1, hab.2.2.2.2.2.2.2.2.2.1⟩) hf
        · simp only [htScore]
        · simp only [htMax]
        · intro hnone
          rw [hnone] at hf
          exact forall₂_right_mem (fun a b hab =>
            hab.2.2.2.2.2.2.2.2.2.2 (lookupKeyed_nil a.section_id)) hf
        · rw [← h2, hrs]
          simp [htScore]
        · rw [← h3, hrm]
          simp [htMax]
        · rw [← h4, hrreq, hsreq]
          simp

theorem packNormalize_spec (data : JValue) (rubric : PackRubric) (out : PackResult)
    (h : packNormalize data rubric = .ok out) :
    out.pack = some (rubric.pack_id, rubric.pack_name) ∧
    (∃ aiT, normPackTmpls aiT rubric.templates =
      .ok (out.templates, out.rawScore, out.rawMax, out.requiredMetRecomputed)) ∧
    out.overall.total_score = pyTrunc out.rawScore ∧
    out.overall.max_score = pyTrunc out.rawMax ∧
    out.overall.percentage = pyRound1 (rawPercentage out.rawScore out.rawMax) ∧
    out.overall.required_criteria_met = out.requiredMetRecomputed ∧
    out.overall.passed =
      (decide (rawPercentage out.rawScore out.rawMax ≥ 60) && out.requiredMetRecomputed) := by
  simp only [packNormalize] at h
  cases htv : pyGetD data "templates" (.arr []) with
  | error e =>
    rw [htv] at h
    simp only [bind, Except.bind] at h
    exact absurd h (by simp)
  | ok tsV =>
    rw [htv] at h
    simp only [bind, Except.bind] at h
    cases hit : jIter tsV with
    | error e =>
      rw [hit] at h
      simp only [bind, Except.bind] at h
      exact absurd h (by simp)
    | ok ts =>
      rw [hit] at h
      simp only [bind, Except.bind] at h
      cases hbt : buildAiTemplates ts with
      | error e =>
        rw [hbt] at h
        simp only [bind, Except.bind] at h
        exact absurd h (by simp)
      | ok aiT =>
        rw [hbt] at h
        simp only [bind, Except.bind] at h
        cases hnt : normPackTmpls aiT rubric.templates with
        | error e =>
          rw [hnt] at h
          simp only [bind, Except.bind, Functor.map, Except.map] at h
          exact absurd h (by simp)
        | ok p =>
          rw [hnt] at h
          obtain ⟨outT, total, maxS, reqMet⟩ := p
          simp only [bind, Except.bind, Functor.map, Except.map, pure, Except.pure] at h
          injection h with h
          subst h
          obtain ⟨hf, hts, htm, htreq⟩ := normPackTmpls_spec aiT rubric.templates outT total maxS reqMet hnt
          have hws : ∀ ov : PackOverall, PackResult.rawScore ⟨some (rubric.pack_id, rubric.pack_name), outT, ov⟩ = total := by
            intro ov
            simp only [PackResult.rawScore]
            exact hts.symm
          have hwm : ∀ ov : PackOverall, PackResult.rawMax ⟨some (rubric.pack_id, rubric.pack_name), outT, ov⟩ = maxS := by
            intro ov
            simp only [PackResult.rawMax]
            exact htm.symm
          have hwr : ∀ ov : PackOverall, PackResult.requiredMetRecomputed ⟨some (rubric.pack_id, rubric.pack_name), outT, ov⟩ = reqMet := by
            intro ov
            simp only [PackResult.requiredMetRecomputed]
            exact htreq.symm
          refine ⟨rfl, ⟨aiT, ?_⟩, ?_, ?_, ?_, ?_, ?_⟩
          · rw [hws, hwm, hwr]
            exact hnt
          · rw [hws]
          · rw [hwm]
          · rw [hws, hwm]
            rfl
          · rw [hwr]
          · rw [hws, hwm, hwr]
            rfl

theorem catNormalize_spec (data : JValue) (rubric : List LegacyCat) (out : CatResult)
    (h : catNormalize data rubric = .ok out) :
    ∃ byCat ts ovV,
      normCats byCat rubric = .ok (out.categories, ts) ∧
      pyGetD data "overall" (.obj []) = .ok ovV ∧
      (∃ tsV, pyGetD ovV "total_score" (.int ts) = .ok tsV ∧ pyIntCoerce tsV = .ok out.total_score) ∧
      (∃ pV, pyGetD ovV "passed" (.bool (out.categories.all (fun c => c.passed))) = .ok pV ∧
        out.passed = pyBoolCoerce pV) := by
  simp only [catNormalize] at h
  cases hcv : pyGetD data "categories" (.arr []) with
  | error e =>
    rw [hcv] at h
    simp only [bind, Except.bind] at h
    exact absurd h (by simp)
  | ok catsV =>
    rw [hcv] at h
    simp only [bind, Except.bind] at h
    cases hcs : jIter catsV with
    | error e =>
      rw [hcs] at h
      simp only [bind, Except.bind] at h
      exact absurd h (by simp)
    | ok cs =>
      rw [hcs] at h
      simp only [bind, Except.bind] at h
      cases hbc : buildKeyedReq "category_id" cs with
      | error e =>
        rw [hbc] at h
        simp only [bind, Except.bind] at h
        exact absurd h (by simp)
      | ok byCat =>
        rw [hbc] at h
        simp only [bind, Except.bind] at h
        cases hnc : normCats byCat rubric with
        | error e =>
          rw [hnc] at h
          simp only [bind, Except.bind] at h
          exact absurd h (by simp)
        | ok p =>
          rw [hnc] at h
          obtain ⟨outCats, totalScore⟩ := p
          simp only [bind, Except.bind] at h
          cases hov : pyGetD data "overall" (.obj []) with
          | error e =>
            rw [hov] at h
            simp only [bind, Except.bind] at h
            exact absurd h (by simp)
          | ok ovV =>
            rw [hov] at h
            simp only [bind, Except.bind] at h
            cases htsv : pyGetD ovV "total_score" (.int totalScore) with
            | error e =>
              rw [htsv] at h
              simp only [bind, Except.bind] at h
              exact absurd h (by simp)
            | ok tsV =>
              rw [htsv] at h
              simp only [bind, Except.bind] at h
              cases hti : pyIntCoerce tsV with
              | error e =>
                rw [hti] at h
                simp only [bind, Except.bind] at h
                exact absurd h (by simp)
              | ok ts =>
                rw [hti] at h
                simp only [bind, Except.bind] at h
                cases hpv : pyGetD ovV "passed" (.bool (outCats.all (fun c => c.passed))) with
                | error e =>
                  rw [hpv] at h
                  simp only [bind, Except.bind] at h
                  exact absurd h (by simp)
                | ok pV =>
                  rw [hpv] at h
                  simp only [bind, Except.bind, pure, Except.pure] at h
                  injection h with h
                  subst h
                  exact ⟨byCat, totalScore, ovV, hnc, rfl, ⟨tsV, htsv, by rw [hti]⟩, ⟨pV, hpv, rfl⟩⟩

/-- Claim C10: `add_token` never emits a sentence whose terminating
punctuation is the last character in the buffer — `_is_valid_sentence_end`
rejects any index at or past the penultimate position, so `findBoundary`
only ever returns an index with at least one character after it; `flush`
returns the stripped non-empty remainder exactly once and leaves the buffer
empty, so a second flush returns `none`. -/
theorem C10_no_boundary_at_buffer_end :
    (∀ (buf : List Char) (i : Nat), buf.length ≤ i + 1 →
      SentenceDetector.isValidSentenceEnd buf i = false) ∧
    (∀ (buf : List Char) (b : Nat), SentenceDetector.findBoundary buf = some b →
      b + 1 < buf.length) ∧
    (∀ (buf : List Char), pyStripL buf ≠ [] →
      SentenceDetector.flush buf = (some (pyStripL buf), [])) ∧
    (∀ (buf s rest : List Char),
      SentenceDetector.flush buf = (some s, rest) →
      s = pyStripL buf ∧ rest = [] ∧ (SentenceDetector.flush rest).1 = none) := by
  have hvalid : ∀ (buf : List Char) (i : Nat), buf.length ≤ i + 1 →
      SentenceDetector.isValidSentenceEnd buf i = false := by
    intro buf i h
    simp only [SentenceDetector.isValidSentenceEnd, if_pos h]
  refine ⟨hvalid, ?_, ?_, ?_⟩
  · intro buf b h
    have hmem := List.mem_of_find?_eq_some h
    have hpred := List.find?_some h
    have hb : b < buf.length := List.mem_range.mp hmem
    by_contra hc
    have hle : buf.length ≤ b + 1 := by omega
    rw [hvalid buf b hle] at hpred
    simp at hpred
  · intro buf h
    simp only [SentenceDetector.flush, if_neg h]
  · intro buf s rest h
    by_cases hs : pyStripL buf = []
    · simp only [SentenceDetector.flush, if_pos hs] at h
      injection h with h1 h2
      exact absurd h1 (by simp)
    · simp only [SentenceDetector.flush, if_neg hs] at h
      injection h with h1 h2
      injection h1 with h1
      exact ⟨h1.symm, h2.symm, by rw [← h2]; rfl⟩

/-- Claim C10 witness: a trailing period is rejected as a boundary, and a
successful flush empties the buffer so that flushing again yields `none`. -/
theorem C10_witness :
    ("Hi.".data.length ≤ 2 + 1 ∧
      SentenceDetector.isValidSentenceEnd "Hi.".data 2 = false) ∧
    (pyStripL " Hi ".data ≠ [] ∧
      SentenceDetector.flush " Hi ".data = (some (pyStripL " Hi ".data), [])) :=
  ⟨⟨by decide, C10_no_boundary_at_buffer_end.1 "Hi.".data 2 (by decide)⟩,
   ⟨by decide, C10_no_boundary_at_buffer_end.2.2.1 " Hi ".data (by decide)⟩⟩

theorem getLastD_take {α : Type} (d : α) :
    ∀ (l : List α) (i : Nat), 1 ≤ i → i ≤ l.length →
      (l.take i).getLastD d = l.getD (i - 1) d := by
  intro l
  induction l with
  | nil =>
    intro i h1 h2
    simp at h2
    omega
  | cons a rest ih =>
    intro i h1 h2
    match i, h1 with
    | 1, _ =>
      simp [List.getLastD]
    | (j + 2), _ =>
      have hr : j + 1 ≤ rest.length := by
        simpa using h2
      have hne : rest.take (j + 1) ≠ [] := by
        have : rest ≠ [] := by
          intro hnil
          rw [hnil] at hr
          simp at hr
        cases rest with
        | nil => exact absurd rfl this
        | cons b t => simp [List.take]
      have step : ((a :: rest).take (j + 2)).getLastD d = (rest.take (j + 1)).getLastD d := by
        simp only [List.take]
        cases htk : rest.take (j + 1) with
        | nil => exact absurd htk hne
        | cons b t => simp [List.getLastD]
      rw [step, ih (j + 1) (by omega) hr]
      simp [List.getD]

/-- Claim C9: the sentence detector rejects a period flanked by digits and a
period preceded by an abbreviation word, and the two spec inputs each come
out as a single sentence. -/
theorem C9_decimal_and_abbreviation_guards :
    (∀ (buf : List Char) (i : Nat), 1 ≤ i → i + 1 < buf.length →
      (buf.getD (i - 1) ' ').isDigit = true → (buf.getD (i + 1) ' ').isDigit = true →
      SentenceDetector.isPeriodSentenceEnd buf i = false) ∧
    (∀ (buf : List Char) (i : Nat) (w : List Char),
      SentenceDetector.lastWordNorm (buf.take i) = some w →
      w ∈ SentenceDetector.ABBREVIATIONS →
      SentenceDetector.isPeriodSentenceEnd buf i = false) ∧
    splitIntoSentences ("Pi is 3.14 today.").data = [("Pi is 3.14 today.").data] ∧
    splitIntoSentences ("I saw Dr. Smith today.").data = [("I saw Dr. Smith today.").data] := by
  refine ⟨?_, ?_, by decide, by decide⟩
  · intro buf i h1 h2 hd1 hd2
    have hi0 : i ≠ 0 := by omega
    have hdec : SentenceDetector.isDecimalContext buf i = true := by
      simp only [SentenceDetector.isDecimalContext]
      have htake : buf.take i ≠ [] := by
        have : i ≤ buf.length := by omega
        cases i with
        | zero => omega
        | succ j =>
          cases buf with
          | nil => simp at h2
          | cons b t => simp [List.take]
      rw [if_neg htake]
      have hlast : (buf.take i).getLastD ' ' = buf.getD (i - 1) ' ' :=
        getLastD_take ' ' buf i h1 (by omega)
      rw [hlast, if_pos hd1]
      simp only [decide_eq_true_eq, Bool.and_eq_true, decide_eq_true (h2 : i + 1 < buf.length)]
      rw [List.getD_eq_getElem _ _ h2] at hd2
      simp [hd2, h2]
    simp only [SentenceDetector.isPeriodSentenceEnd, if_neg hi0]
    by_cases hurl : SentenceDetector.isUrlContext (buf.take i) = true
    · simp [hurl]
    · simp only [Bool.not_eq_true] at hurl
      simp [hurl, hdec]
  · intro buf i w hw hmem
    have habb : SentenceDetector.isAbbreviationContext (buf.take i) = true := by
      simp only [SentenceDetector.isAbbreviationContext]
      rw [hw]
      simp [hmem]
    by_cases hi0 : i = 0
    · rw [hi0] at hw
      simp [SentenceDetector.lastWordNorm, SentenceDetector.pySplitWs,
            SentenceDetector.pySplitWsAux] at hw
    · simp only [SentenceDetector.isPeriodSentenceEnd, if_neg hi0]
      by_cases hurl : SentenceDetector.isUrlContext (buf.take i) = true
      · simp [hurl]
      · simp only [Bool.not_eq_true] at hurl
        by_cases hdec : SentenceDetector.isDecimalContext buf i = true
        · simp [hurl, hdec]
        · simp only [Bool.not_eq_true] at hdec
          by_cases hell : SentenceDetector.isEllipsisContext buf i = true
          · simp [hurl, hdec, hell]
          · simp only [Bool.not_eq_true] at hell
            simp [hurl, hdec, hell, habb]

/-- Claim C9 witness: concrete instances of both rejection rules. -/
theorem C9_witness :
    ((1 : Nat) ≤ 1 ∧ 1 + 1 < "3.14".data.length ∧
      ("3.14".data.getD 0 ' ').isDigit = true ∧ ("3.14".data.getD 2 ' ').isDigit = true ∧
      SentenceDetector.isPeriodSentenceEnd "3.14".data 1 = false) ∧
    (SentenceDetector.lastWordNorm ("Dr. Smith".data.take 2) = some "dr".data ∧
      "dr".data ∈ SentenceDetector.ABBREVIATIONS ∧
      SentenceDetector.isPeriodSentenceEnd "Dr. Smith".data 2 = false) :=
  ⟨⟨by decide, by decide, by decide, by decide,
    C9_decimal_and_abbreviation_guards.1 "3.14".data 1 (by decide) (by decide) (by decide) (by decide)⟩,
   ⟨by decide, by decide,
    C9_decimal_and_abbreviation_guards.2.1 "Dr. Smith".data 2 "dr".data (by decide) (by decide)⟩⟩

/-- Claim C5: when the rubric is non-empty and the judge call fails in any
way (transport error, non-2xx status, or unparseable body — all modelled by
`judge = none`, covering every exception inside the Python `try` block),
both evaluators return the well-formed zero result with `passed = false`
and no scores, raising nothing. -/
theorem C5_zero_result_on_judge_failure :
    ∀ (rubric : List LegacyCat) (prubric : PackRubric),
      rubric ≠ [] → prubric.templates ≠ [] →
      catEvaluate rubric none = .ok ⟨[], 0, false⟩ ∧
      packEvaluate (some prubric) none =
        .ok ⟨some (prubric.pack_id, prubric.pack_name), [], ⟨0, 0, 0, false, false⟩⟩ := by
  intro rubric prubric h1 h2
  constructor
  · have : rubric.isEmpty = false := by
      cases rubric with
      | nil => exact absurd rfl h1
      | cons a t => rfl
    simp [catEvaluate, this]
  · have : prubric.templates.isEmpty = false := by
      cases htl : prubric.templates with
      | nil => exact absurd htl h2
      | cons a t => rfl
    simp [packEvaluate, this]

/-- Claim C5 witness: the zero results at the concrete rubrics. -/
theorem C5_witness :
    (rubricL1 ≠ [] ∧ packR1.templates ≠ []) ∧
    catEvaluate rubricL1 none = .ok ⟨[], 0, false⟩ ∧
    packEvaluate (some packR1) none = .ok ⟨some (5, "Pack"), [], ⟨0, 0, 0, false, false⟩⟩ :=
  ⟨⟨by simp [rubricL1], by simp [packR1]⟩,
   C5_zero_result_on_judge_failure rubricL1 packR1 (by simp [rubricL1]) (by simp [packR1])⟩

/-- Claim C7: an activity whose rubric resolves to empty (missing activity,
no rubric pack, or no eligible templates/categories) yields the trivially
passed empty result, for every judge value — i.e. without consulting the
judge at all. -/
theorem C7_empty_rubric_trivially_passes :
    ∀ (judge : Option JValue),
      catEvaluate [] judge = .ok ⟨[], 0, true⟩ ∧
      packEvaluate none judge = .ok ⟨none, [], ⟨0, 0, 0, true, true⟩⟩ ∧
      (∀ r : PackRubric, r.templates = [] →
        packEvaluate (some r) judge = .ok ⟨none, [], ⟨0, 0, 0, true, true⟩⟩) := by
  intro judge
  refine ⟨rfl, rfl, ?_⟩
  intro r hr
  have : r.templates.isEmpty = true := by
    rw [hr]
    rfl
  simp [packEvaluate, this]

/-- Claim C7 witness: the trivially passed results at a concrete judge value
and a concrete templateless rubric. -/
theorem C7_witness :
    catEvaluate [] (some (.obj [("templates", .null)])) = .ok ⟨[], 0, true⟩ ∧
    packEvaluate none (some (.obj [("templates", .null)])) = .ok ⟨none, [], ⟨0, 0, 0, true, true⟩⟩ ∧
    ((⟨9, "Empty", []⟩ : PackRubric).templates = [] ∧
      packEvaluate (some ⟨9, "Empty", []⟩) (some (.obj [("templates", .null)])) =
        .ok ⟨none, [], ⟨0, 0, 0, true, true⟩⟩) :=
  ⟨(C7_empty_rubric_trivially_passes (some (.obj [("templates", .null)]))).1,
   (C7_empty_rubric_trivially_passes (some (.obj [("templates", .null)]))).2.1,
   ⟨rfl, (C7_empty_rubric_trivially_passes (some (.obj [("templates", .null)]))).2.2 _ rfl⟩⟩

/-- Claim C1 counterexample: the normalizers are not total over arbitrary
judge JSON — iterating a `null` value for `categories`/`templates` raises a
Python `TypeError` instead of returning the completed structure. -/
theorem C1_counterexample :
    catNormalize (.obj [("categories", .null)]) rubricL1 = .error "TypeError" ∧
    packNormalize (.obj [("templates", .null)]) packR1 = .error "TypeError" :=
  ⟨rfl, rfl⟩

/-- Claim C1 (amended): whenever either normalizer does return a result, its
leaf entries are exactly the canonical criteria, matched by id, in the
rubric's canonical order, and a criterion with no matching judge entry gets
score 0, empty evidence lists, and no rewrite. -/
theorem C1_normalize_completeness :
    (∀ (data : JValue) (rubric : List LegacyCat) (out : CatResult),
      catNormalize data rubric = .ok out →
      out.categories.map (fun o => o.category_id) = rubric.map (fun c => c.category_id) ∧
      List.Forall₂ (fun (cat : LegacyCat) (o : OutCat) =>
        o.criteria.map (fun c => c.subcategory_id) = cat.criteria.map (fun c => c.subcategory_id))
        rubric out.categories) ∧
    (∀ (bySub : List (JValue × JObj)) (subs : List LegacySub) (outs : List OutSub) (s : ℤ),
      normSubs bySub subs = .ok (outs, s) →
      List.Forall₂ (fun (sub : LegacySub) (o : OutSub) =>
        o.subcategory_id = sub.subcategory_id ∧
        (lookupKeyed bySub sub.subcategory_id = none → o.isDefault)) subs outs) ∧
    (∀ (data : JValue) (rubric : PackRubric) (out : PackResult),
      packNormalize data rubric = .ok out →
      out.templates.map (fun t => t.template_id) = rubric.templates.map (fun t => t.template_id) ∧
      List.Forall₂ (fun (t : PackTemplate) (o : OutTemplate) =>
        o.sections.map (fun s => s.section_id) = t.sections.map (fun s => s.section_id) ∧
        List.Forall₂ (fun (sec : PackSection) (so : OutSection) =>
          so.criteria.map (fun c => c.criterion_id) = sec.criteria.map (fun c => c.criterion_id))
          t.sections o.sections) rubric.templates out.templates) ∧
    (∀ (aiSec : List (JValue × JObj)) (crits : List PackCrit) (outs : List OutPackCrit)
        (s m : ℚ) (req : Bool),
      normPackCrits aiSec crits = .ok (outs, s, m, req) →
      List.Forall₂ (fun (c : PackCrit) (o : OutPackCrit) =>
        o.criterion_id = c.criterion_id ∧
        (lookupKeyed aiSec c.criterion_id = none → o.isDefault)) crits outs) := by
  refine ⟨?_, ?_, ?_, ?_⟩
  · intro data rubric out h
    obtain ⟨byCat, ts, ovV, hnc, -, -, -⟩ := catNormalize_spec data rubric out h
    obtain ⟨hf, -⟩ := normCats_spec byCat rubric out.categories ts hnc
    constructor
    · exact forall₂_map_eq _ _ (fun a b hab => hab.1) hf
    · exact List.Forall₂.imp (fun a b hab => hab.2.2.2.1) hf
  · intro bySub subs outs s h
    obtain ⟨hf, -⟩ := normSubs_spec bySub subs outs s h
    exact List.Forall₂.imp (fun a b hab => ⟨hab.1, hab.2.2⟩) hf
  · intro data rubric out h
    obtain ⟨-, ⟨aiT, hnt⟩, -, -, -, -, -⟩ := packNormalize_spec data rubric out h
    obtain ⟨hf, -, -, -⟩ := normPackTmpls_spec aiT rubric.templates out.templates
      out.rawScore out.rawMax out.requiredMetRecomputed hnt
    constructor
    · exact forall₂_map_eq _ _ (fun a b hab => hab.1) hf
    · exact List.Forall₂.imp (fun a b hab =>
        ⟨hab.2.2.2.2.2.2.1, hab.2.2.2.2.2.2.2.1⟩) hf
  · intro aiSec crits outs s m req h
    obtain ⟨hf, -, -, -⟩ := normPackCrits_spec aiSec crits outs s m req h
    exact List.Forall₂.imp (fun a b hab => ⟨hab.1, hab.2.2.2.2.2.2.2⟩) hf

/-- Claim C1 witness: completeness at concrete inputs — an empty judge
object still yields every canonical id, and a judge-unmatched criterion of a
concrete lookup yields the default entry. -/
theorem C1_witness :
    (catNormalize (.obj []) rubricL1 = .ok outC1cat ∧
      outC1cat.categories.map (fun o => o.category_id) = rubricL1.map (fun c => c.category_id)) ∧
    (packNormalize (.obj []) packR1 = .ok outC1pack ∧
      outC1pack.templates.map (fun t => t.template_id) = packR1.templates.map (fun t => t.template_id)) ∧
    (normSubs [] [⟨10, "Empathy"⟩] = .ok ([⟨10, "Empathy", 0, .arr [], .arr [], .str ""⟩], 0) ∧
      List.Forall₂ (fun (sub : LegacySub) (o : OutSub) =>
        o.subcategory_id = sub.subcategory_id ∧
        (lookupKeyed ([] : List (JValue × JObj)) sub.subcategory_id = none → o.isDefault))
        [⟨10, "Empathy"⟩] [⟨10, "Empathy", 0, .arr [], .arr [], .str ""⟩]) :=
  ⟨⟨rfl, (C1_normalize_completeness.1 (.obj []) rubricL1 outC1cat rfl).1⟩,
   ⟨rfl, (C1_normalize_completeness.2.2.1 (.obj []) packR1 outC1pack rfl).1⟩,
   ⟨rfl, C1_normalize_completeness.2.1 [] [⟨10, "Empathy"⟩]
      [⟨10, "Empathy", 0, .arr [], .arr [], .str ""⟩] 0 rfl⟩⟩

/-- Claim C2 counterexample: the legacy normalizer takes the judge-supplied
`overall.total_score` and `overall.passed` when present — here every leaf
score is 0 and the single category fails its threshold, yet the output
reports total 999 and passed. -/
theorem C2_counterexample :
    (catNormalize (.obj [("categories", .arr []),
        ("overall", .obj [("total_score", .int 999), ("passed", .bool true)])]) rubricL1).map
      (fun out => (out.total_score, out.passed,
        out.categories.map (fun (c : OutCat) => (c.passed, c.criteria.map (fun s => s.score))))) =
    .ok (999, true, [(false, [0, 0])]) := rfl

/-- Claim C2 (amended): in hierarchical mode every aggregate (section,
template and overall score/max) is recomputed bottom-up from the normalized
leaf scores; in legacy mode the per-category score is likewise recomputed
from its leaves, but the overall `total_score` and `passed` come from the
judge's `overall` object when those keys are present — the recomputed total
and the all-categories-passed flag are only the defaults used when the
judge omits them. -/
theorem C2_aggregates_recomputed :
    (∀ (data : JValue) (rubric : PackRubric) (out : PackResult),
      packNormalize data rubric = .ok out →
      out.overall.total_score = pyTrunc out.rawScore ∧
      out.overall.max_score = pyTrunc out.rawMax ∧
      (∀ t ∈ out.templates, t.template_score = pyTrunc t.rawScore ∧
        t.template_max_score = pyTrunc t.rawMax ∧
        (∀ s ∈ t.sections, s.score = pyTrunc s.rawScore ∧ s.max_score = pyTrunc s.rawMax))) ∧
    (∀ (data : JValue) (rubric : List LegacyCat) (out : CatResult),
      catNormalize data rubric = .ok out →
      ∀ c ∈ out.categories, c.score = (c.criteria.map (fun s => s.score)).sum) ∧
    (∀ (kvs : JObj) (rubric : List LegacyCat) (out : CatResult),
      catNormalize (.obj kvs) rubric = .ok out →
      kvs.lookup "overall" = none →
      out.total_score = (out.categories.map (fun c => c.score)).sum ∧
      out.passed = out.categories.all (fun c => c.passed)) := by
  refine ⟨?_, ?_, ?_⟩
  · intro data rubric out h
    obtain ⟨-, ⟨aiT, hnt⟩, hts, htm, -, -, -⟩ := packNormalize_spec data rubric out h
    obtain ⟨hf, -, -, -⟩ := normPackTmpls_spec aiT rubric.templates out.templates
      out.rawScore out.rawMax out.requiredMetRecomputed hnt
    refine ⟨hts, htm, ?_⟩
    exact forall₂_right_mem (fun a b hab =>
      ⟨hab.2.2.2.2.2.2.2.2.2.1, hab.2.2.2.2.2.2.2.2.2.2.1,
       fun s hs => ⟨(hab.2.2.2.2.2.2.2.2.1 s hs).2.1, (hab.2.2.2.2.2.2.2.2.1 s hs).2.2⟩⟩) hf
  · intro data rubric out h
    obtain ⟨byCat, ts, ovV, hnc, -, -, -⟩ := catNormalize_spec data rubric out h
    obtain ⟨hf, -⟩ := normCats_spec byCat rubric out.categories ts hnc
    exact forall₂_right_mem (fun a b hab => hab.2.2.2.2.2.1) hf
  · intro kvs rubric out h hov
    obtain ⟨byCat, ts, ovV, hnc, hovv, ⟨tsV, htsv, hti⟩, ⟨pV, hpv, hp⟩⟩ :=
      catNormalize_spec (.obj kvs) rubric out h
    obtain ⟨-, hsum⟩ := normCats_spec byCat rubric out.categories ts hnc
    have hov0 : ovV = .obj [] := by
      simp only [pyGetD, hov, Option.getD, pure, Except.pure] at hovv
      injection hovv with hovv
      exact hovv.symm
    subst hov0
    simp only [pyGetD, List.lookup, Option.getD, pure, Except.pure] at htsv hpv
    injection htsv with htsv
    injection hpv with hpv
    subst htsv
    simp only [pyIntCoerce, pure, Except.pure] at hti
    injection hti with hti
    refine ⟨?_, ?_⟩
    · rw [← hti, hsum]
    · rw [hp, ← hpv]
      rfl

/-- Claim C2 witness: recomputed aggregates at concrete inputs, and the
judge-omitted-overall defaults in legacy mode. -/
theorem C2_witness :
    (packNormalize judge60 packR60 = .ok out60 ∧
      out60.overall.total_score = pyTrunc out60.rawScore ∧
      out60.overall.max_score = pyTrunc out60.rawMax) ∧
    (catNormalize (.obj []) rubricL1 = .ok outC1cat ∧
      ([] : JObj).lookup "overall" = none ∧
      outC1cat.total_score = (outC1cat.categories.map (fun c => c.score)).sum ∧
      outC1cat.passed = outC1cat.categories.all (fun c => c.passed)) :=
  ⟨⟨rfl, (C2_aggregates_recomputed.1 judge60 packR60 out60 rfl).1,
    (C2_aggregates_recomputed.1 judge60 packR60 out60 rfl).2.1⟩,
   ⟨rfl, rfl, C2_aggregates_recomputed.2.2 [] rubricL1 outC1cat rfl rfl⟩⟩

/-- Claim C3: the spec requires both normalizers to clamp leaf scores into
`[0, 2]`, and `CategoryRubricEvaluator.evaluate`'s own docstring documents
`"score": int (0-2)`, but the legacy normalizer keeps an out-of-range judge
integer unchanged (7 here), while the hierarchical normalizer does clamp the
same input to 2. -/
theorem C3_legacy_score_not_clamped :
    (catNormalize (.obj [("categories", .arr [.obj [("category_id", .int 1),
        ("criteria", .arr [.obj [("subcategory_id", .int 10), ("score", .int 7)]])]])])
      rubricL1).map
      (fun out => out.categories.map (fun (c : OutCat) => c.criteria.map (fun s => s.score))) =
    .ok [[7, 0]] ∧
    (packNormalize (.obj [("templates", .arr [.obj [("template_id", .int 100),
        ("sections", .arr [.obj [("section_id", .int 1),
          ("criteria", .arr [.obj [("criterion_id", .int 11), ("score", .int 7)]])]])]])])
      packR1).map
      (fun out => out.templates.map (fun (t : OutTemplate) => t.sections.map (fun s =>
        s.criteria.map (fun c => c.score)))) =
    .ok [[[2, 0], [0, 0]]] :=
  ⟨rfl, rfl⟩

/-- Claim C6 counterexample: the legacy normalizer surfaces a judge-supplied
rewrite even on a perfect score — subcategory 10 scores 2 yet keeps
`"Say X"`. -/
theorem C6_counterexample :
    (catNormalize (.obj [("categories", .arr [.obj [("category_id", .int 1),
        ("criteria", .arr [.obj [("subcategory_id", .int 10), ("score", .int 2),
          ("rewrite_if_missing", .str "Say X")]])]])]) rubricL1).map
      (fun out => out.categories.map (fun (c : OutCat) => c.criteria.map
        (fun s => (s.score, s.rewrite_if_missing)))) =
    .ok [[(2, .str "Say X"), (0, .str "")]] := rfl

/-- Claim C6 (amended): in the hierarchical normalizer the rewrite field of
a leaf that scored 2 is forced to `null` regardless of what the judge
supplied; the legacy normalizer instead passes the judge-supplied
`rewrite_if_missing` through (defaulting to the empty string) at any score. -/
theorem C6_rewrite_suppressed_on_full_score :
    ∀ (data : JValue) (rubric : PackRubric) (out : PackResult),
      packNormalize data rubric = .ok out →
      ∀ t ∈ out.templates, ∀ s ∈ t.sections, ∀ c ∈ s.criteria,
        c.score = 2 → c.rewrite_if_missing = .null := by
  intro data rubric out h
  obtain ⟨-, ⟨aiT, hnt⟩, -, -, -, -, -⟩ := packNormalize_spec data rubric out h
  obtain ⟨hf, -, -, -⟩ := normPackTmpls_spec aiT rubric.templates out.templates
    out.rawScore out.rawMax out.requiredMetRecomputed hnt
  intro t ht s hs c hc h2
  exact ((forall₂_right_mem (fun a b hab => hab.2.2.2.2.2.2.2.2.1) hf) t ht s hs).1 c hc |>.2.2 h2

/-- Claim C6 witness: against `packR1`, the judge awards criterion 11 a 2
together with a rewrite, and the normalized leaf keeps the 2 but has its
rewrite forced to `null`. -/
theorem C6_witness :
    packNormalize judgeC6 packR1 = .ok outC6 ∧
    (((outC6.templates.headD ⟨0, "", "", "", "", "", [], 0, 0⟩).sections.headD
        ⟨0, "", "", 0, 0, []⟩).criteria.headD ⟨0, "", false, 0, 0, .null, .null, .null⟩).score = 2 ∧
    (((outC6.templates.headD ⟨0, "", "", "", "", "", [], 0, 0⟩).sections.headD
        ⟨0, "", "", 0, 0, []⟩).criteria.headD ⟨0, "", false, 0, 0, .null, .null, .null⟩).rewrite_if_missing = .null :=
  ⟨rfl, rfl,
   C6_rewrite_suppressed_on_full_score judgeC6 packR1 outC6 rfl
     ((outC6.templates.headD ⟨0, "", "", "", "", "", [], 0, 0⟩)) (List.mem_cons_self _ _)
     ((outC6.templates.headD ⟨0, "", "", "", "", "", [], 0, 0⟩).sections.headD ⟨0, "", "", 0, 0, []⟩)
       (List.mem_cons_self _ _)
     (((outC6.templates.headD ⟨0, "", "", "", "", "", [], 0, 0⟩).sections.headD
        ⟨0, "", "", 0, 0, []⟩).criteria.headD ⟨0, "", false, 0, 0, .null, .null, .null⟩)
       (List.mem_cons_self _ _)
     rfl⟩

/-- Claim C4: in hierarchical normalization the pass decision uses the
unrounded percentage `total / max * 100` (0 when the maximum is 0 — never a
division error), `required_criteria_met` holds exactly when every required
leaf scored 2, and `passed` is exactly `percentage ≥ 60` together with the
required-criteria flag; the reported `percentage` field is that quantity
rounded to one decimal. -/
theorem C4_pass_policy :
    ∀ (data : JValue) (rubric : PackRubric) (out : PackResult),
      packNormalize data rubric = .ok out →
      (0 < out.rawMax → rawPercentage out.rawScore out.rawMax = out.rawScore / out.rawMax * 100) ∧
      (out.rawMax = 0 → rawPercentage out.rawScore out.rawMax = 0) ∧
      out.overall.percentage = pyRound1 (rawPercentage out.rawScore out.rawMax) ∧
      (out.overall.required_criteria_met = true ↔
        ∀ c ∈ out.allLeaves, c.is_required = true → c.score = 2) ∧
      out.overall.passed =
        (decide (rawPercentage out.rawScore out.rawMax ≥ 60) && out.overall.required_criteria_met) := by
  intro data rubric out h
  obtain ⟨-, ⟨aiT, hnt⟩, -, -, hpct, hreq, hpass⟩ := packNormalize_spec data rubric out h
  obtain ⟨hf, -, -, -⟩ := normPackTmpls_spec aiT rubric.templates out.templates
    out.rawScore out.rawMax out.requiredMetRecomputed hnt
  have hbounds : ∀ t ∈ out.templates, ∀ s ∈ t.sections, ∀ c ∈ s.criteria, c.score ≤ 2 :=
    fun t ht s hs c hc =>
      (((forall₂_right_mem (fun a b hab => hab.2.2.2.2.2.2.2.2.1) hf) t ht s hs).1 c hc).2.1
  refine ⟨?_, ?_, hpct, ?_, ?_⟩
  · intro hpos
    simp only [rawPercentage, if_pos hpos]
  · intro hzero
    simp only [rawPercentage, hzero]
    norm_num
  · rw [hreq]
    simp only [PackResult.requiredMetRecomputed, PackResult.allLeaves,
      List.all_eq_true, List.mem_flatMap]
    constructor
    · intro hall c hc hr
      obtain ⟨t, ht, s, hs, hcc⟩ := hc
      have := hall t ht s hs c hcc
      simp only [Bool.or_eq_true, Bool.not_eq_true', decide_eq_true_eq] at this
      rcases this with h1 | h2
      · rw [hr] at h1
        cases h1
      · exact h2
    · intro hall t ht s hs c hc
      simp only [Bool.or_eq_true, Bool.not_eq_true', decide_eq_true_eq]
      by_cases hr : c.is_required = true
      · exact Or.inr (hall c ⟨t, ht, s, hs, hc⟩ hr)
      · exact Or.inl (by simpa using hr)
  · rw [hpass, hreq]

/-- Claim C4 witness: scoring `[2,2,2,0,0]` at weight 1 gives an unrounded
percentage of exactly 60 and passes; weights 5999/4001 scored `[2,0]` give
exactly 59.99, which fails even though the reported rounded percentage
reads 60.0. -/
theorem C4_witness :
    (packNormalize judge60 packR60 = .ok out60 ∧
      out60.overall.passed =
        (decide (rawPercentage out60.rawScore out60.rawMax ≥ 60) && out60.overall.required_criteria_met) ∧
      rawPercentage out60.rawScore out60.rawMax = 60 ∧
      out60.overall.required_criteria_met = true ∧
      out60.overall.passed = true) ∧
    (packNormalize judge5999 packR5999 = .ok out5999 ∧
      rawPercentage out5999.rawScore out5999.rawMax = 5999 / 100 ∧
      out5999.overall.required_criteria_met = true ∧
      out5999.overall.passed = false ∧
      out5999.overall.percentage = 60) :=
  ⟨⟨rfl, (C4_pass_policy judge60 packR60 out60 rfl).2.2.2.2, by with_unfolding_all rfl,
    by with_unfolding_all rfl, by with_unfolding_all rfl⟩,
   ⟨rfl, by with_unfolding_all rfl, by with_unfolding_all rfl, by with_unfolding_all rfl,
    by with_unfolding_all rfl⟩⟩

theorem filterMap_line_eq_filter_map {α β : Type} (t : α → String) (g : α → β) :
    ∀ l : List α,
      (l.filterMap (fun a => if t a = "" then none else some (g a))) =
      (l.filter (fun a => t a ≠ "")).map g := by
  intro l
  induction l with
  | nil => rfl
  | cons a rest ih =>
    by_cases h : t a = "" <;> simp [h, ih]

/-- Claim C8 counterexample: Python's `l[-0:]` is the whole list and
`s[-0:]` the whole string, so `max_turns = 0` keeps every turn (instead of
none) and `max_chars = 0` keeps every character (instead of none). -/
theorem C8_counterexample :
    buildTranscript [⟨some "user", some "hi", none⟩] 0 1000 = "[0] DOCTOR: hi" ∧
    buildTranscript [⟨some "user", some "hi", none⟩] 40 0 = "[0] DOCTOR: hi" :=
  ⟨rfl, rfl⟩

/-- Claim C8 (amended): for `max_turns ≥ 1` only the last `max_turns` turns
are considered, one line per non-empty turn (whitespace-only text is
dropped, never emitted as a blank line), indexed by the position in the
already-truncated list; for `max_chars ≥ 1` a transcript longer than
`max_chars` keeps exactly its trailing `max_chars` characters; `max_turns =
0` or `max_chars = 0` instead keep everything, because Python's `[-0:]`
slice is the identity.  Given 50 turns and `max_turns = 40`, the last 40
appear, indexed `[0..39]` in their own order. -/
theorem C8_transcript_truncation :
    (∀ (msgs : List Msg) (mt : Nat), 1 ≤ mt →
      transcriptLines msgs mt =
        ((msgs.drop (msgs.length - mt)).enum.filter (fun (p : Nat × Msg) => msgText p.2 ≠ "")).map
          (fun (p : Nat × Msg) => "[" ++ toString p.1 ++ "] " ++ msgWho p.2 ++ ": " ++ msgText p.2)) ∧
    (∀ (msgs : List Msg) (mt : Nat), "" ∉ transcriptLines msgs mt) ∧
    (∀ (msgs : List Msg) (mt : Nat), 1 ≤ mt →
      transcriptLinesSimple msgs mt =
        ((msgs.drop (msgs.length - mt)).filter (fun m => msgText m ≠ "")).map
          (fun m => msgRole m ++ ": " ++ msgText m)) ∧
    (∀ (msgs : List Msg) (mt mc : Nat), 1 ≤ mc →
      (String.intercalate "\n" (transcriptLines msgs mt)).length > mc →
      buildTranscript msgs mt mc =
        pyTakeLastS mc (String.intercalate "\n" (transcriptLines msgs mt))) ∧
    (∀ (s : String) (mc : Nat), 1 ≤ mc →
      (pyTakeLastS mc s).data = s.data.drop (s.data.length - mc)) ∧
    transcriptLines msgs50 40 =
      (List.range 40).map (fun i => "[" ++ toString i ++ "] DOCTOR: m" ++ toString (i + 10)) := by
  refine ⟨?_, ?_, ?_, ?_, ?_, by decide⟩
  · intro msgs mt hmt
    have hne : mt ≠ 0 := by omega
    simp only [transcriptLines, pyTakeLast, if_neg hne]
    exact filterMap_line_eq_filter_map (fun (p : Nat × Msg) => msgText p.2)
      (fun (p : Nat × Msg) => "[" ++ toString p.1 ++ "] " ++ msgWho p.2 ++ ": " ++ msgText p.2) _
  · intro msgs mt hmem
    simp only [transcriptLines, List.mem_filterMap] at hmem
    obtain ⟨p, -, hp⟩ := hmem
    by_cases h : msgText p.2 = ""
    · simp [h] at hp
    · simp only [if_neg h] at hp
      injection hp with hp
      have := congrArg String.length hp
      simp [String.length_append] at this
      exact absurd this.1.1.1.1.1 (by decide)
  · intro msgs mt hmt
    have hne : mt ≠ 0 := by omega
    simp only [transcriptLinesSimple, pyTakeLast, if_neg hne]
    exact filterMap_line_eq_filter_map (fun (m : Msg) => msgText m)
      (fun (m : Msg) => msgRole m ++ ": " ++ msgText m) _
  · intro msgs mt mc hmc hlong
    simp only [buildTranscript, if_pos hlong]
  · intro s mc hmc
    have hne : mc ≠ 0 := by omega
    simp only [pyTakeLastS, pyTakeLast, if_neg hne, String.mk]

/-- Claim C8 witness: the truncation equations at concrete inputs. -/
theorem C8_witness :
    ((1 : Nat) ≤ 40 ∧ transcriptLines msgs50 40 =
      ((msgs50.drop (msgs50.length - 40)).enum.filter (fun (p : Nat × Msg) => msgText p.2 ≠ "")).map
        (fun (p : Nat × Msg) => "[" ++ toString p.1 ++ "] " ++ msgWho p.2 ++ ": " ++ msgText p.2)) ∧
    ((1 : Nat) ≤ 3 ∧ (pyTakeLastS 3 "abcdef").data = "abcdef".data.drop ("abcdef".data.length - 3)) :=
  ⟨⟨by decide, C8_transcript_truncation.1 msgs50 40 (by decide)⟩,
   ⟨by decide, C8_transcript_truncation.2.2.2.2.1 "abcdef" 3 (by decide)⟩⟩
